import Mathlib

/-!
Verification development for the plugin-update repository.

The repository has two source files: the atomic tar extractor
(src/tar.ts) and the update orchestrator / version store
(the Updater class with its helpers).  Each is embedded shallowly
below: pure helpers become Lean functions, and the effectful flows
(extract, runUpdate, tidy, debounce) become explicit state-passing
functions over a small file-system model, with the results of
external collaborators (HTTP endpoints, file reads performed by the
host framework) supplied as oracle inputs.
-/

namespace Tar

/-- A file-system tree: regular files with contents, or directories
mapping child names to subtrees. -/
inductive Tree where
  | file (data : String) : Tree
  | dir (children : List (String × Tree)) : Tree

/-- Sibling-level file system: a map from a path to the tree stored there.
The extractor only ever touches the destination path and its generated
sibling temp names, so a flat map of full paths suffices. -/
abbrev FS := String → Option Tree

/-- Write (create or replace) the tree at a path. -/
def FS.set (fs : FS) (p : String) (t : Tree) : FS :=
  fun q => if q = p then some t else fs q

/-- Remove the entry at a path (rm with force: no error when absent). -/
def FS.erase (fs : FS) (p : String) : FS :=
  fun q => if q = p then none else fs q

theorem FS.set_apply (fs : FS) (p : String) (t : Tree) (q : String) :
    FS.set fs p t q = if q = p then some t else fs q := rfl

theorem FS.erase_apply (fs : FS) (p : String) (q : String) :
    FS.erase fs p q = if q = p then none else fs q := rfl

/-- Embedding of the entry filter of src/tar.ts (the switch on
header?.type): directory and file entries are kept (false: not ignored),
symlink entries are dropped (true: ignored), and any other entry type is
thrown, carrying the raw type as the error payload, which aborts the
pipeline.  A missing header gives type none. -/
def ignore (ty : Option String) : Except (Option String) Bool :=
  if ty = some "directory" then Except.ok false
  else if ty = some "file" then Except.ok false
  else if ty = some "symlink" then Except.ok true
  else Except.error ty

/-- One archive entry as seen by the filter: its name and its
header type. -/
structure Entry where
  name : String
  type : Option String

/-- The tar pipeline run over its entries in order: each entry is passed
to the ignore filter; a thrown type aborts the stream at that entry,
an ignored entry is skipped, an accepted entry is materialized. -/
def filterEntries : List Entry → Except (Option String) (List Entry)
  | [] => Except.ok []
  | e :: es =>
    match ignore e.type with
    | Except.error t => Except.error t
    | Except.ok true => filterEntries es
    | Except.ok false =>
      match filterEntries es with
      | Except.error t => Except.error t
      | Except.ok ks => Except.ok (e :: ks)

/-- The message of the Error thrown by the filter
(new Error(header?.type)): the raw type string, empty when the header
type is undefined. -/
def errMsg : Option String → String
  | some t => t
  | none => ""

/-- Node fs.promises.cp without the recursive option, as called in the
backup block of extract: copying a regular file succeeds, copying a
directory is rejected with ERR_FS_EISDIR because recursive copying was
not enabled. -/
def cpNode : Tree → Except String Tree
  | Tree.file d => Except.ok (Tree.file d)
  | Tree.dir _ => Except.error "ERR_FS_EISDIR"

/-- Look up a direct child of a tree. -/
def getChild (t : Tree) (name : String) : Option Tree :=
  match t with
  | Tree.file _ => none
  | Tree.dir cs => cs.lookup name

/-- Remove a direct child of a tree. -/
def removeChild (t : Tree) (name : String) : Tree :=
  match t with
  | Tree.file d => Tree.file d
  | Tree.dir cs => Tree.dir (cs.filter (fun c => c.1 ≠ name))

/-- POSIX rename(2) when the destination already exists: a directory may
replace an empty directory, a file may replace a file, and every other
combination fails with the corresponding errno. none means the rename
may proceed. -/
def renameCheck (src dst : Tree) : Option String :=
  match src, dst with
  | Tree.dir _, Tree.dir [] => none
  | Tree.dir _, Tree.dir (_ :: _) => some "ENOTEMPTY"
  | Tree.dir _, Tree.file _ => some "ENOTDIR"
  | Tree.file _, Tree.dir _ => some "EISDIR"
  | Tree.file _, Tree.file _ => none

/-- Move the subtree named bn inside tmp (or tmp itself when bn is empty,
matching Node join(tmp, "") = tmp) onto out. -/
def doMove (fs : FS) (tmp bn out : String) (st : Tree) : FS :=
  if bn = "" then (fs.erase tmp).set out st
  else
    match fs tmp with
    | some t => (fs.set tmp (removeChild t bn)).set out st
    | none => fs.set out st

/-- Observable events of one extract call. -/
inductive EEv where
  | cpEv (src dst : String) (ok : Bool) : EEv
  | rmEv (p : String) : EEv
  | renameEv (bn out : String) : EEv
  | touchEv (p : String) : EEv

/-- Input of one extract(stream, basename, output) call.  tmp and tmp2
are the two randomized sibling temp names the call generates (output +
".partial." + five random digits).  streamTree is what the tar pipeline
wrote under tmp by the time it settled, and streamErr is some e when the
pipeline rejected (stream error, or an entry type thrown by the ignore
filter) instead of finishing. -/
structure ExtractIn where
  output : String
  basename : String
  tmp : String
  tmp2 : String
  streamErr : Option String
  streamTree : Tree
  fs : FS

/-- Result of one extract call: the settled promise, the file system
afterwards, and the trace of effects. -/
structure ExtractOut where
  result : Except String Unit
  fs : FS
  trace : List EEv

/-- Embedding of extract of src/tar.ts.  The pipeline extracts into tmp;
on a stream rejection the catch removes tmp and re-raises.  On success,
if the destination exists the code tries cp(output, tmp2) followed by
rm(tmp2) - note the rm removes the backup copy, not the destination -
and on a cp failure the catch block removes the staging directory tmp
(the inner tmp constant is out of scope there).  Then the subtree
join(tmp, basename) is renamed onto output, tmp is removed best-effort
and the destination is touched; any raised error reaches the outer
catch, which removes tmp and re-raises. -/
def extract (inp : ExtractIn) : ExtractOut :=
  let fs1 := inp.fs.set inp.tmp inp.streamTree
  match inp.streamErr with
  | some e => ⟨Except.error e, fs1.erase inp.tmp, [EEv.rmEv inp.tmp]⟩
  | none =>
    let step2 : FS × List EEv :=
      match fs1 inp.output with
      | none => (fs1, [])
      | some destTree =>
        match cpNode destTree with
        | Except.ok copyTree =>
          ((fs1.set inp.tmp2 copyTree).erase inp.tmp2,
            [EEv.cpEv inp.output inp.tmp2 true, EEv.rmEv inp.tmp2])
        | Except.error _ =>
          (fs1.erase inp.tmp,
            [EEv.cpEv inp.output inp.tmp2 false, EEv.rmEv inp.tmp])
    let fs2 := step2.1
    let t2 := step2.2
    let src : Option Tree :=
      if inp.basename = "" then fs2 inp.tmp
      else Option.bind (fs2 inp.tmp) (fun t => getChild t inp.basename)
    match src with
    | none => ⟨Except.error "ENOENT", fs2.erase inp.tmp, t2 ++ [EEv.rmEv inp.tmp]⟩
    | some st =>
      match fs2 inp.output with
      | none =>
        let fs3 := doMove fs2 inp.tmp inp.basename inp.output st
        ⟨Except.ok (), fs3.erase inp.tmp,
          t2 ++ [EEv.renameEv inp.basename inp.output, EEv.rmEv inp.tmp, EEv.touchEv inp.output]⟩
      | some dt =>
        match renameCheck st dt with
        | some code => ⟨Except.error code, fs2.erase inp.tmp, t2 ++ [EEv.rmEv inp.tmp]⟩
        | none =>
          let fs3 := doMove fs2 inp.tmp inp.basename inp.output st
          ⟨Except.ok (), fs3.erase inp.tmp,
            t2 ++ [EEv.renameEv inp.basename inp.output, EEv.rmEv inp.tmp, EEv.touchEv inp.output]⟩

/-- When the tar pipeline rejects (stream error or thrown entry type),
the catch removes the staging directory and re-raises the original
error; the destination is untouched (the pipeline wrote only under
tmp). -/
theorem extract_stream_error (inp : ExtractIn) (e : String)
    (h : inp.streamErr = some e) (htmp : inp.tmp ≠ inp.output) :
    (extract inp).result = Except.error e ∧
    (extract inp).fs inp.output = inp.fs inp.output ∧
    (extract inp).fs inp.tmp = none := by
  unfold extract
  rw [h]
  refine ⟨rfl, ?_, ?_⟩ <;> simp [FS.erase, FS.set, htmp, Ne.symm htmp]

/-- When the stream succeeds but the destination already exists as a
directory, the backup cp fails (directory copy without the recursive
option), the catch swallows that error and removes the staging
directory, and the subsequent rename then fails with ENOENT; the
destination is unchanged and no staging directory remains. -/
theorem extract_backup_failure (inp : ExtractIn) (cs : List (String × Tree))
    (h : inp.streamErr = none) (hout : inp.fs inp.output = some (Tree.dir cs))
    (htmp : inp.tmp ≠ inp.output) :
    (extract inp).result = Except.error "ENOENT" ∧
    (extract inp).fs inp.output = inp.fs inp.output ∧
    (extract inp).fs inp.tmp = none := by
  unfold extract
  rw [h]
  refine ⟨?_, ?_, ?_⟩ <;> simp [hout, cpNode, FS.erase, FS.set, htmp, Ne.symm htmp]

/-- An entry kept by the filter passed an ignore call that returned
false. -/
theorem filterEntries_mem (es ks : List Entry) (e : Entry)
    (h : filterEntries es = Except.ok ks) (hm : e ∈ ks) :
    ignore e.type = Except.ok false := by
  induction es generalizing ks with
  | nil =>
    unfold filterEntries at h
    cases h
    cases hm
  | cons a as ih =>
    unfold filterEntries at h
    rcases hi : ignore a.type with t | b
    · rw [hi] at h; cases h
    · rw [hi] at h
      cases b
      · rcases hr : filterEntries as with t | ks2
        · rw [hr] at h; cases h
        · rw [hr] at h
          cases h
          rcases List.mem_cons.mp hm with he | he
          · subst he; exact hi
          · exact ih ks2 hr he
      · exact ih ks h hm

/-- An ignore call returning false means the entry type was directory or
file. -/
theorem ignore_ok_false (ty : Option String) (h : ignore ty = Except.ok false) :
    ty = some "directory" ∨ ty = some "file" := by
  unfold ignore at h
  split at h
  · left; assumption
  · split at h
    · right; assumption
    · split at h <;> cases h

/-- A destination that already holds an installed tree, used to exercise
the backup block of extract with an injected-failure-free stream. -/
def c1fs : FS := fun p => if p = "out" then some (Tree.dir [("data", Tree.file "v1")]) else none

/-- A call in which the stream succeeds and the destination exists, so
the only failing step before the rename is the backup copy. -/
def c1in : ExtractIn :=
  { output := "out", basename := "3.2.0", tmp := "out.partial.11111", tmp2 := "out.partial.22222",
    streamErr := none,
    streamTree := Tree.dir [("3.2.0", Tree.dir [("bin", Tree.file "exe")])],
    fs := c1fs }

/-- C1 counterexample: on this call the backup copy is the step that
fails before the final rename (the trace records the failed cp of the
destination, whose error is ERR_FS_EISDIR), yet the error the call
raises is the later rename's ENOENT, not the original error of the
failing step - so the original error is not re-raised to the caller. -/
theorem C1_counterexample :
    (extract c1in).trace =
      [EEv.cpEv "out" "out.partial.22222" false, EEv.rmEv "out.partial.11111",
        EEv.rmEv "out.partial.11111"] ∧
    (extract c1in).result = Except.error "ENOENT" ∧
    "ENOENT" ≠ "ERR_FS_EISDIR" :=
  ⟨rfl, rfl, by decide⟩

/-- C1 (amended): if the streaming extraction itself fails (a stream
error or an unsupported entry type), the staging directory is removed,
the original error is re-raised and the destination is untouched; if
instead the best-effort backup step fails (which happens whenever the
destination exists as a directory), its error is swallowed, the staging
directory is removed, and the call fails with the rename's own ENOENT -
the destination is still untouched and no staging directory remains. -/
theorem C1_interrupted_extraction (inp : ExtractIn) (e : String)
    (htmp : inp.tmp ≠ inp.output) :
    (inp.streamErr = some e →
      (extract inp).result = Except.error e ∧
      (extract inp).fs inp.output = inp.fs inp.output ∧
      (extract inp).fs inp.tmp = none) ∧
    (inp.streamErr = none → ∀ cs, inp.fs inp.output = some (Tree.dir cs) →
      (extract inp).result = Except.error "ENOENT" ∧
      (extract inp).fs inp.output = inp.fs inp.output ∧
      (extract inp).fs inp.tmp = none) :=
  ⟨fun h => extract_stream_error inp e h htmp,
   fun h cs hout => extract_backup_failure inp cs h hout htmp⟩

/-- A destination holding a single file, for the stream-error witness. -/
def w1fs : FS := fun p => if p = "dst" then some (Tree.file "keep") else none

/-- A call whose stream rejects with EPIPE. -/
def w1in : ExtractIn :=
  { output := "dst", basename := "1.0.0", tmp := "dst.partial.55555", tmp2 := "dst.partial.66666",
    streamErr := some "EPIPE", streamTree := Tree.dir [], fs := w1fs }

/-- Witness for C1 (amended) at a concrete stream failure. -/
theorem C1_witness :
    (extract w1in).result = Except.error "EPIPE" ∧
    (extract w1in).fs "dst" = w1in.fs "dst" ∧
    (extract w1in).fs "dst.partial.55555" = none :=
  (C1_interrupted_extraction w1in "EPIPE" (by decide)).1 rfl

/-- An existing, non-empty destination for the C4 evaluation. -/
def c4fs : FS := fun p => if p = "dest" then some (Tree.dir [("old", Tree.file "stale")]) else none

/-- A fully successful stream aimed at an already-existing destination. -/
def c4in : ExtractIn :=
  { output := "dest", basename := "9.9.9", tmp := "dest.partial.33333", tmp2 := "dest.partial.44444",
    streamErr := none,
    streamTree := Tree.dir [("9.9.9", Tree.dir [("bin", Tree.file "exe")])],
    fs := c4fs }

/-- C4 (code bug, evaluation at the failing input): the stream succeeds
and the destination already exists, but the commit described by the spec
never happens: the backup cp of the destination directory fails
(recursive copy not enabled), the catch removes the staging directory
itself instead of the destination, the rename then fails with ENOENT,
and the call ends in error with the destination's old contents still in
place; the trace shows the failed cp, two staging removals, and neither
a rename nor a touch of the destination. -/
theorem C4_commit_never_succeeds :
    (extract c4in).result = Except.error "ENOENT" ∧
    (extract c4in).fs "dest" = some (Tree.dir [("old", Tree.file "stale")]) ∧
    (extract c4in).fs "dest.partial.33333" = none ∧
    (extract c4in).trace =
      [EEv.cpEv "dest" "dest.partial.44444" false, EEv.rmEv "dest.partial.33333",
        EEv.rmEv "dest.partial.33333"] :=
  ⟨rfl, rfl, rfl, rfl⟩

/-- C5: the entry filter accepts directory and regular-file entries,
silently excludes symlink entries (every entry kept by the pipeline is a
directory or file, never a symlink), and throws on any other entry type;
such a throw rejects the stream, and the extract call then removes its
staging directory, leaves the destination untouched, and re-raises. -/
theorem C5_entry_filter :
    (ignore (some "directory") = Except.ok false ∧
     ignore (some "file") = Except.ok false ∧
     ignore (some "symlink") = Except.ok true) ∧
    (∀ ty : Option String, ty ≠ some "directory" → ty ≠ some "file" → ty ≠ some "symlink" →
      ignore ty = Except.error ty) ∧
    (∀ es ks : List Entry, ∀ e : Entry, filterEntries es = Except.ok ks → e ∈ ks →
      e.type ≠ some "symlink" ∧ (e.type = some "directory" ∨ e.type = some "file")) ∧
    (∀ inp : ExtractIn, ∀ es : List Entry, ∀ ty : Option String,
      filterEntries es = Except.error ty → inp.streamErr = some (errMsg ty) →
      inp.tmp ≠ inp.output →
      (extract inp).result = Except.error (errMsg ty) ∧
      (extract inp).fs inp.output = inp.fs inp.output ∧
      (extract inp).fs inp.tmp = none) := by
  refine ⟨⟨rfl, rfl, rfl⟩, ?_, ?_, ?_⟩
  · intro ty h1 h2 h3
    unfold ignore
    rw [if_neg h1, if_neg h2, if_neg h3]
  · intro es ks e h hm
    have hf := filterEntries_mem es ks e h hm
    have hd := ignore_ok_false e.type hf
    refine ⟨?_, hd⟩
    rcases hd with h | h <;> simp [h]
  · intro inp es ty hfe hse htmp
    exact extract_stream_error inp (errMsg ty) hse htmp

/-- A call whose stream rejects because of a hardlink entry. -/
def w5in : ExtractIn :=
  { output := "o5", basename := "", tmp := "o5.partial.77777", tmp2 := "o5.partial.88888",
    streamErr := some "link", streamTree := Tree.dir [], fs := fun _ => none }

/-- Witness for C5 at concrete entries: a hardlink entry type throws,
the resulting extract call fails cleanly, and a kept file entry is not a
symlink. -/
theorem C5_witness :
    ignore (some "link") = Except.error (some "link") ∧
    ((extract w5in).result = Except.error "link" ∧
     (extract w5in).fs "o5" = w5in.fs "o5" ∧
     (extract w5in).fs "o5.partial.77777" = none) ∧
    (Entry.mk "a" (some "file")).type ≠ some "symlink" :=
  ⟨C5_entry_filter.2.1 (some "link") (by decide) (by decide) (by decide),
   C5_entry_filter.2.2.2 w5in [⟨"x", some "link"⟩] (some "link") rfl rfl (by decide),
   (C5_entry_filter.2.2.1 [⟨"a", some "file"⟩] [⟨"a", some "file"⟩] ⟨"a", some "file"⟩ rfl
     (by simp)).1⟩

end Tar

namespace Upd

/-- Whether the first list is a prefix of the second, by characters. -/
def listPre : List Char → List Char → Bool
  | [], _ => true
  | _ :: _, [] => false
  | a :: as, b :: bs => a == b && listPre as bs

/-- JS String.prototype.startsWith. -/
def jsStartsWith (s pre : String) : Bool :=
  listPre pre.data s.data

/-- Whether pat occurs somewhere in the character list. -/
def containsSub (pat : List Char) : List Char → Bool
  | [] => listPre pat []
  | x :: xs => listPre pat (x :: xs) || containsSub pat xs

/-- Remove the first occurrence of pat from the character list. -/
def removeFirst (pat : List Char) : List Char → List Char
  | [] => []
  | x :: xs =>
    if listPre pat (x :: xs) then (x :: xs).drop pat.length
    else x :: removeFirst pat xs

/-- JS String.prototype.replace with a string pattern and an empty
replacement: remove the first occurrence of the pattern. -/
def jsReplaceFirst (s pat : String) : String :=
  String.mk (removeFirst pat.data s.data)

/-- Node path.basename for slash-separated paths without a trailing
slash: the last path component (everything after the last slash). -/
def jsBasename (p : String) : String :=
  String.mk ((p.data.reverse.takeWhile (fun c => c != '/')).reverse)

/-- Embedding of isNotSpecial from tidy: an entry is not special when
its basename is none of bin, current, or the protected version.  The
parameter order is the helper's declared one: the path first, the
version second. -/
def isNotSpecial (fPath version : String) : Bool :=
  !(["bin", "current", version].contains (jsBasename fPath))

/-- Embedding of isOld from tidy.  Timestamps are modelled in hours;
setHours(getHours() + 42 * 24) advances the mtime by exactly 42 days,
and the entry is old when that shifted instant lies before now. -/
def isOld (mtimeH nowH : Int) : Bool :=
  mtimeH + 42 * 24 < nowH

/-- One entry of the client root as returned by the directory listing:
its full path and its stat mtime (in hours). -/
structure LsEntry where
  path : String
  mtimeH : Int

/-- Embedding of Updater.tidy: when the client root exists, every listed
entry passing the filter is deleted (concurrently; we return the list of
deleted paths).  The filter is called exactly as at the call site:
isNotSpecial(this.config.version, f.path) - the configured version in
the path position and the entry path in the version position. -/
def tidy (configVersion : String) (rootExists : Bool) (files : List LsEntry)
    (nowH : Int) : List String :=
  if rootExists then
    ((files.filter (fun f => isNotSpecial configVersion f.path && isOld f.mtimeH nowH)).map
      LsEntry.path)
  else []

/-- Embedding of determineChannel.  channelFileContent is the contents
of the channel file when it exists; distTags is the remote dist-tags
query, an association list of tag to version in key order, or a failure.
The persisted channel is the trimmed file contents, defaulting to
stable; on a successful query, the first tag whose version equals the
requested one replaces it; npm-style tags are then translated to oclif
channels; on a failed query the persisted channel is returned and
nothing is raised. -/
def determineChannel (channelFileContent : Option String) (version : Option String)
    (distTags : Except Unit (List (String × String))) : String :=
  let channel :=
    match channelFileContent with
    | some c => c.trim
    | none => "stable"
  match distTags with
  | Except.error _ => channel
  | Except.ok tags =>
    let tag :=
      match (tags.map Prod.fst).find? (fun k => tags.lookup k == version) with
      | some t => t
      | none => channel
    if tag = "latest" then "stable"
    else if tag = "latest-rc" then "stable-rc"
    else tag

/-- Embedding of the debounce gate.  mt k is the marker mtime read at
the k-th poll and clock k the wall clock at that poll, both in
milliseconds; one hour is 3600000 ms.  Each recursive step stands for
one wait(60 * 1000) suspension, recorded as a 60000 ms sleep; the gate
returns the index of the poll at which it let the caller proceed,
together with the sleeps it performed, or none when the fuel runs out
while the window is still closed. -/
def debounceGate (mt clock : Nat → Int) : Nat → Nat → Option Nat × List Int
  | 0, _ => (none, [])
  | fuel + 1, k =>
    if clock k < mt k + 3600000 then
      let r := debounceGate mt clock fuel (k + 1)
      (r.1, 60000 :: r.2)
    else (some k, [])

/-- JS String.prototype.includes for a fixed non-empty pattern. -/
def jsIncludes (s pat : String) : Bool :=
  containsSub pat.data s.data

/-- JS object key assignment: updating an existing key keeps its
position, a new key is appended. -/
def objSet (acc : List (String × String)) (k v : String) : List (String × String) :=
  if acc.any (fun kv => kv.1 = k) then
    acc.map (fun kv => if kv.1 = k then (k, v) else kv)
  else acc ++ [(k, v)]

/-- Embedding of Updater.fetchVersionIndex: the GitHub releases call
yields tag names (or fails); releases whose tag contains the CLI scope
marker are folded into a version-to-link object, every value being the
placeholder link; a failed call becomes the no-version-indices error
naming the CLI. -/
def fetchVersionIndex (configName : String) (releases : Except Unit (List String)) :
    Except String (List (String × String)) :=
  match releases with
  | Except.error _ => Except.error ("No version indices exist for " ++ configName ++ ".")
  | Except.ok tagNames =>
    Except.ok (tagNames.foldl
      (fun acc version =>
        if jsIncludes version "@xata.io/cli@" then
          objSet acc (jsReplaceFirst version "@xata.io/cli@") "LINK_TO_DOWNLOAD_BINARY"
        else acc)
      [])

/-- Embedding of findLocalVersions: directory entries of the client root
other than bin and current (the source joins them to the root and
findLocalVersion takes the basename again, so we keep the names). -/
def findLocalVersions (dirs : List String) : List String :=
  dirs.filter (fun d => d ≠ "bin" && d ≠ "current")

/-- Embedding of findLocalVersion: the first local version directory
whose name starts with the requested version. -/
def findLocalVersion (v : String) (dirs : List String) : Option String :=
  (findLocalVersions dirs).find? (fun f => jsStartsWith f v)

/-- Embedding of alreadyOnVersion: strict equality of the current
version with the candidate; a null candidate never matches. -/
def alreadyOnVersion (current : String) (updated : Option String) : Bool :=
  match updated with
  | some u => current == u
  | none => false

/-- The configuration fields the orchestrator consults.  binPath none
models a falsy config.binPath (the not-updatable guard). -/
structure Config where
  name : String
  version : String
  binPath : Option String

/-- The options of one runUpdate call, after defaulting force. -/
structure Options where
  autoUpdate : Bool
  channel : Option String
  force : Bool
  version : Option String

/-- The environment of one runUpdate call: the lastrun marker stat
(none when the file is missing, so the stat rejects), the resolved
current version (read from the shim by determineCurrentVersion), the
channel file and dist-tags inputs of determineChannel, the client-root
directory listing, the GitHub releases behind fetchVersionIndex, the
npm latest endpoint, and whether a download-and-extract would
succeed. -/
structure UpdEnv where
  lastrunMtime : Option Int
  current : String
  channelFile : Option String
  distTags : Except Unit (List (String × String))
  localDirs : List String
  releases : Except Unit (List String)
  latest : Except String String
  downloadOk : Bool

/-- Errors a runUpdate call can reject with: the stat failure of the
debounce gate for a missing marker, or a thrown Error message. -/
inductive UErr where
  | enoentStat (path : String) : UErr
  | msg (s : String) : UErr
deriving DecidableEq

/-- Observable events of one runUpdate call, in order. -/
inductive Ev where
  | debouncePass : Ev
  | hookPre (channel : String) (version : String) : Ev
  | hookUpd (channel : String) (version : String) : Ev
  | fetchIndexEv : Ev
  | fetchLatestEv : Ev
  | download (output : String) : Ev
  | refreshCfg (v : String) : Ev
  | setChannelEv (c : String) : Ev
  | createBinEv (v : String) : Ev
  | touchClient (v : String) : Ev
  | tidyEv : Ev
deriving DecidableEq

/-- The settled runUpdate promise together with its event trace. -/
structure RunResult where
  result : Except UErr Unit
  trace : List Ev

/-- The shared tail of every completed update path: touch the active
version directory, then tidy (source lines at the end of runUpdate). -/
def finish (t : List Ev) (v : String) : RunResult :=
  ⟨Except.ok (), t ++ [Ev.touchClient v, Ev.tidyEv]⟩

/-- Embedding of Updater.runUpdate.  With autoUpdate the debounce gate
runs first; a missing lastrun marker rejects the stat inside it, and
otherwise the gate eventually lets the run proceed (the wall clock
advances past the window).  The not-updatable guard stops the run.  The
channel is the explicit option or the determineChannel result for the
requested version.  With an explicit version: a matching local version
is looked up unless forced; being already on it returns at once
(before the hooks, with no touch and no tidy); otherwise the preupdate
hook runs, then either the switch to the existing local version
(refresh config, rewrite the shim) or the download path (fetch the
index, fail when the version has no entry, otherwise download unless
present and not forced, refresh config, persist the channel, rewrite
the shim), then the update hook and the touch-tidy tail.  With no
explicit version: fetch latest; when already on it and not forced, no
install step runs but the update hook and the tail still do; otherwise
the preupdate hook, the same download path, the update hook and the
tail. -/
def runUpdateBody (cfg : Config) (opts : Options) (env : UpdEnv) (t0 : List Ev) : RunResult :=
  if cfg.binPath.isNone then ⟨Except.ok (), t0⟩
  else
      let channel := opts.channel.getD (determineChannel env.channelFile opts.version env.distTags)
      let current := env.current
      match opts.version with
      | some v =>
        let localVersion := if opts.force then none else findLocalVersion v env.localDirs
        if alreadyOnVersion current localVersion then ⟨Except.ok (), t0⟩
        else
          let t1 := t0 ++ [Ev.hookPre channel v]
          match localVersion with
          | some lv =>
            finish (t1 ++ [Ev.refreshCfg lv, Ev.createBinEv lv, Ev.hookUpd channel v]) lv
          | none =>
            let t2 := t1 ++ [Ev.fetchIndexEv]
            match fetchVersionIndex cfg.name env.releases with
            | Except.error m => ⟨Except.error (UErr.msg m), t2⟩
            | Except.ok index =>
              match index.lookup v with
              | none =>
                ⟨Except.error (UErr.msg (v ++ " not found in index:\n" ++
                  String.intercalate ", " (index.map Prod.fst))), t2⟩
              | some _ =>
                let needDl := opts.force || !(env.localDirs.contains v)
                if needDl && !env.downloadOk then
                  ⟨Except.error (UErr.msg "unabel to extract"), t2⟩
                else
                  finish (t2 ++ (if needDl then [Ev.download v] else []) ++
                    [Ev.refreshCfg v, Ev.setChannelEv channel, Ev.createBinEv v,
                      Ev.hookUpd channel v]) v
      | none =>
        let t1 := t0 ++ [Ev.fetchLatestEv]
        match env.latest with
        | Except.error m => ⟨Except.error (UErr.msg m), t1⟩
        | Except.ok latest =>
          if !opts.force && current == latest then
            finish (t1 ++ [Ev.hookUpd channel latest]) cfg.version
          else
            let needDl := opts.force || !(env.localDirs.contains latest)
            if needDl && !env.downloadOk then
              ⟨Except.error (UErr.msg "unabel to extract"), t1 ++ [Ev.hookPre channel latest]⟩
            else
              finish (t1 ++ [Ev.hookPre channel latest] ++
                (if needDl then [Ev.download latest] else []) ++
                [Ev.refreshCfg latest, Ev.setChannelEv channel, Ev.createBinEv latest,
                  Ev.hookUpd channel latest]) latest

/-- Embedding of Updater.runUpdate: with autoUpdate the debounce gate
runs first - a missing lastrun marker makes the stat inside it reject,
which rejects the whole call before anything else happens, and an
existing marker lets the gate return once the window has elapsed (the
wall clock advances one minute per poll, so this always happens); the
rest of the method is runUpdateBody. -/
def runUpdate (cfg : Config) (opts : Options) (env : UpdEnv) : RunResult :=
  match (if opts.autoUpdate then env.lastrunMtime.map (fun _ => [Ev.debouncePass]) else some []) with
  | none => ⟨Except.error (UErr.enoentStat "lastrun"), []⟩
  | some t0 => runUpdateBody cfg opts env t0

/-- The early-return case of runUpdate: an explicit version was
requested, not forced, and the resolved local version equals the current
one. -/
def explicitNoOp (opts : Options) (env : UpdEnv) : Bool :=
  match opts.version with
  | some v =>
    alreadyOnVersion env.current (if opts.force then none else findLocalVersion v env.localDirs)
  | none => false

/-- When the debounce gate does not reject (no autoupdate, or the
marker exists), runUpdate is its body under one of the two possible
debounce prefixes. -/
theorem runUpdate_debounced (cfg : Config) (opts : Options) (env : UpdEnv)
    (hdeb : opts.autoUpdate = false ∨ env.lastrunMtime.isSome) :
    ∃ t0, (t0 = [] ∨ t0 = [Ev.debouncePass]) ∧
      runUpdate cfg opts env = runUpdateBody cfg opts env t0 := by
  by_cases hau : opts.autoUpdate
  · rcases hdeb with h | h
    · rw [hau] at h; cases h
    · obtain ⟨m, hm⟩ := Option.isSome_iff_exists.mp h
      exact ⟨[Ev.debouncePass], Or.inr rfl, by simp [runUpdate, hau, hm]⟩
  · exact ⟨[], Or.inl rfl, by simp [runUpdate, hau]⟩

/-- The switch-to-local-version path of the body, fully evaluated: an
explicit version, not forced, resolving to a local version different
from the current one, refreshes the configuration and rewrites the shim
for the found local version, with no download, then touches and
tidies. -/
theorem runUpdateBody_switch_local (cfg : Config) (opts : Options) (env : UpdEnv)
    (t0 : List Ev) (v lv : String)
    (hbin : cfg.binPath.isNone = false)
    (hv : opts.version = some v)
    (hf : opts.force = false)
    (hl : findLocalVersion v env.localDirs = some lv)
    (hcur : env.current ≠ lv) :
    runUpdateBody cfg opts env t0 =
      ⟨Except.ok (), t0 ++
        [Ev.hookPre (opts.channel.getD
            (determineChannel env.channelFile opts.version env.distTags)) v,
          Ev.refreshCfg lv, Ev.createBinEv lv,
          Ev.hookUpd (opts.channel.getD
            (determineChannel env.channelFile opts.version env.distTags)) v,
          Ev.touchClient lv, Ev.tidyEv]⟩ := by
  have hne : (env.current == lv) = false := beq_eq_false_iff_ne.mpr hcur
  unfold runUpdateBody
  simp [hbin, hv, hf, hl, alreadyOnVersion, hne, finish]

/-- The version-not-in-index path of the body: an explicit version that
is not installed locally (or a forced run) and has no entry in the
freshly fetched index rejects with the not-found message listing the
index keys. -/
theorem runUpdateBody_not_in_index (cfg : Config) (opts : Options) (env : UpdEnv)
    (t0 : List Ev) (v : String) (index : List (String × String))
    (hbin : cfg.binPath.isNone = false)
    (hv : opts.version = some v)
    (hlv : (if opts.force then none else findLocalVersion v env.localDirs) = none)
    (hidx : fetchVersionIndex cfg.name env.releases = Except.ok index)
    (habs : index.lookup v = none) :
    (runUpdateBody cfg opts env t0).result =
      Except.error (UErr.msg (v ++ " not found in index:\n" ++
        String.intercalate ", " (index.map Prod.fst))) := by
  unfold runUpdateBody
  simp [hbin, hv, hlv, hidx, habs, alreadyOnVersion]

/-- Exhaustive shape analysis of the body: it rejects, or it is one of
the two early returns (not updatable, or already on the requested
version) which leave the trace at the debounce prefix, or its trace ends
with the touch of the active version directory followed by tidy. -/
theorem runUpdateBody_cases (cfg : Config) (opts : Options) (env : UpdEnv) (t0 : List Ev) :
    (∃ e, (runUpdateBody cfg opts env t0).result = Except.error e) ∨
    ((cfg.binPath.isNone = true ∨ explicitNoOp opts env = true) ∧
      runUpdateBody cfg opts env t0 = ⟨Except.ok (), t0⟩) ∨
    (∃ t v, (runUpdateBody cfg opts env t0).trace = t ++ [Ev.touchClient v, Ev.tidyEv]) := by
  by_cases hb : cfg.binPath.isNone = true
  · exact Or.inr (Or.inl ⟨Or.inl hb, by simp [runUpdateBody, hb]⟩)
  · rw [Bool.not_eq_true] at hb
    rcases hv : opts.version with _ | v
    · rcases hl : env.latest with m | latest
      · exact Or.inl ⟨UErr.msg m, by simp [runUpdateBody, hb, hv, hl]⟩
      · by_cases heq : (!opts.force && env.current == latest) = true
        · refine Or.inr (Or.inr ⟨t0 ++ [Ev.fetchLatestEv,
            Ev.hookUpd (opts.channel.getD
              (determineChannel env.channelFile opts.version env.distTags)) latest],
            cfg.version, ?_⟩)
          simp [runUpdateBody, hb, hv, hl, heq, finish]
        · rw [Bool.not_eq_true] at heq
          by_cases hdl : (opts.force = true ∨ latest ∉ env.localDirs) ∧ env.downloadOk = false
          · exact Or.inl ⟨UErr.msg "unabel to extract",
              by simp [runUpdateBody, hb, hv, hl, heq, hdl]⟩
          · refine Or.inr (Or.inr ⟨t0 ++ [Ev.fetchLatestEv,
              Ev.hookPre (opts.channel.getD
                (determineChannel env.channelFile opts.version env.distTags)) latest] ++
              (if (opts.force || !(env.localDirs.contains latest)) = true
                then [Ev.download latest] else []) ++
              [Ev.refreshCfg latest,
                Ev.setChannelEv (opts.channel.getD
                  (determineChannel env.channelFile opts.version env.distTags)),
                Ev.createBinEv latest,
                Ev.hookUpd (opts.channel.getD
                  (determineChannel env.channelFile opts.version env.distTags)) latest],
              latest, ?_⟩)
            simp [runUpdateBody, hb, hv, hl, heq, hdl, finish]
    · by_cases ha : alreadyOnVersion env.current
        (if opts.force then none else findLocalVersion v env.localDirs) = true
      · refine Or.inr (Or.inl ⟨Or.inr ?_, by simp [runUpdateBody, hb, hv, ha]⟩)
        unfold explicitNoOp
        rw [hv]
        exact ha
      · rw [Bool.not_eq_true] at ha
        rcases hlv : (if opts.force then none else findLocalVersion v env.localDirs) with _ | lv
        · rw [hlv] at ha
          rcases hidx : fetchVersionIndex cfg.name env.releases with m | index
          · exact Or.inl ⟨UErr.msg m, by simp [runUpdateBody, hb, hv, ha, hlv, hidx]⟩
          · rcases hlook : index.lookup v with _ | u
            · exact Or.inl ⟨UErr.msg (v ++ " not found in index:\n" ++
                String.intercalate ", " (index.map Prod.fst)),
                by simp [runUpdateBody, hb, hv, ha, hlv, hidx, hlook]⟩
            · by_cases hdl : (opts.force = true ∨ v ∉ env.localDirs) ∧ env.downloadOk = false
              · exact Or.inl ⟨UErr.msg "unabel to extract",
                  by simp [runUpdateBody, hb, hv, ha, hlv, hidx, hlook, hdl]⟩
              · refine Or.inr (Or.inr ⟨t0 ++
                  [Ev.hookPre (opts.channel.getD
                    (determineChannel env.channelFile opts.version env.distTags)) v,
                    Ev.fetchIndexEv] ++
                  (if (opts.force || !(env.localDirs.contains v)) = true
                    then [Ev.download v] else []) ++
                  [Ev.refreshCfg v,
                    Ev.setChannelEv (opts.channel.getD
                      (determineChannel env.channelFile opts.version env.distTags)),
                    Ev.createBinEv v,
                    Ev.hookUpd (opts.channel.getD
                      (determineChannel env.channelFile opts.version env.distTags)) v],
                  v, ?_⟩)
                simp [runUpdateBody, hb, hv, ha, hlv, hidx, hlook, hdl, finish]
        · rw [hlv] at ha
          refine Or.inr (Or.inr ⟨t0 ++
            [Ev.hookPre (opts.channel.getD
              (determineChannel env.channelFile opts.version env.distTags)) v,
              Ev.refreshCfg lv, Ev.createBinEv lv,
              Ev.hookUpd (opts.channel.getD
                (determineChannel env.channelFile opts.version env.distTags)) v],
            lv, ?_⟩)
          simp [runUpdateBody, hb, hv, ha, hlv, finish]

/-- Every body run that completes successfully, other than the
not-updatable stop and the explicit-version early return, ends its trace
with a touch of the active version directory followed by tidy. -/
theorem runUpdateBody_touch_tidy (cfg : Config) (opts : Options) (env : UpdEnv)
    (t0 : List Ev)
    (hbin : cfg.binPath.isNone = false)
    (hno : explicitNoOp opts env = false)
    (hok : (runUpdateBody cfg opts env t0).result = Except.ok ()) :
    ∃ t v, (runUpdateBody cfg opts env t0).trace = t ++ [Ev.touchClient v, Ev.tidyEv] := by
  rcases runUpdateBody_cases cfg opts env t0 with ⟨e, he⟩ | ⟨hsrc, _⟩ | h
  · rw [hok] at he; cases he
  · rcases hsrc with h | h
    · rw [h] at hbin; cases hbin
    · rw [h] at hno; cases hno
  · exact h

/-- C2 (code bug, evaluation at the failing input): with active version
1.2.3, the entries bin, current and 1.2.3 under the client root, all
older than the 42-day window, are every one deleted by tidy, because the
call site passes the arguments to isNotSpecial in swapped order; with
the helper's intended order the bin entry would be protected. -/
theorem C2_protected_entries_deleted :
    tidy "1.2.3" true
      [⟨"/root/client/bin", 0⟩, ⟨"/root/client/current", 0⟩, ⟨"/root/client/1.2.3", 0⟩] 2000 =
      ["/root/client/bin", "/root/client/current", "/root/client/1.2.3"] ∧
    jsBasename "/root/client/bin" = "bin" ∧
    isNotSpecial "/root/client/bin" "1.2.3" = false ∧
    isNotSpecial "1.2.3" "/root/client/bin" = true :=
  ⟨by decide, by decide, by decide, by decide⟩

/-- A run whose explicit requested version is already the current one
and installed: the claim expects touch and tidy to still run. -/
def c3cfg : Config := ⟨"xata", "1.0.0", some "bin/xata"⟩

/-- Options requesting version 1.0.0 with no force and no autoupdate. -/
def c3opts : Options := ⟨false, some "stable", false, some "1.0.0"⟩

/-- Environment in which 1.0.0 is installed and current. -/
def c3env : UpdEnv :=
  { lastrunMtime := none, current := "1.0.0", channelFile := none,
    distTags := Except.error (), localDirs := ["bin", "current", "1.0.0"],
    releases := Except.error (), latest := Except.error "x", downloadOk := true }

/-- C3 counterexample: a run that reaches the decision logic (the
not-updatable guard passes) with an explicit version that resolves to an
installed local version equal to the current one completes successfully
with an empty trace - neither the touch of the active version directory
nor tidy ever runs, contradicting the claim that they run after every
decision branch. -/
theorem C3_counterexample :
    (runUpdate c3cfg c3opts c3env).result = Except.ok () ∧
    (runUpdate c3cfg c3opts c3env).trace = [] :=
  ⟨by rfl, by rfl⟩

/-- C3 (amended): every runUpdate that passes the debounce gate and the
not-updatable guard, does not take the explicit-version early return
(requested version resolving to a local version equal to the current
one), and completes successfully, ends its trace with the touch of the
active version directory immediately followed by tidy, whichever branch
was taken. -/
theorem C3_touch_then_tidy (cfg : Config) (opts : Options) (env : UpdEnv)
    (hdeb : opts.autoUpdate = false ∨ env.lastrunMtime.isSome)
    (hbin : cfg.binPath.isNone = false)
    (hno : explicitNoOp opts env = false)
    (hok : (runUpdate cfg opts env).result = Except.ok ()) :
    ∃ t v, (runUpdate cfg opts env).trace = t ++ [Ev.touchClient v, Ev.tidyEv] := by
  obtain ⟨t0, _, hrun⟩ := runUpdate_debounced cfg opts env hdeb
  rw [hrun] at hok ⊢
  exact runUpdateBody_touch_tidy cfg opts env t0 hbin hno hok

/-- Configuration for the C3 witness run. -/
def w3cfg : Config := ⟨"xata", "1.0.0", some "bin/xata"⟩

/-- Options of the C3 witness: no explicit version. -/
def w3opts : Options := ⟨false, some "stable", false, none⟩

/-- Environment of the C3 witness: latest equals current, so the run is
the no-explicit-version no-op branch. -/
def w3env : UpdEnv :=
  { lastrunMtime := none, current := "1.0.0", channelFile := none,
    distTags := Except.error (), localDirs := ["bin", "current", "1.0.0"],
    releases := Except.error (), latest := Except.ok "1.0.0", downloadOk := true }

/-- Witness for C3 (amended) at a concrete no-op run. -/
theorem C3_witness :
    ∃ t v, (runUpdate w3cfg w3opts w3env).trace = t ++ [Ev.touchClient v, Ev.tidyEv] :=
  C3_touch_then_tidy w3cfg w3opts w3env (Or.inl rfl) rfl rfl rfl

/-- Configuration for the C6 counterexample run. -/
def c6cfg : Config := ⟨"xata", "0.9.0", some "bin/xata"⟩

/-- Options requesting the already-installed version 2.0.0, no force. -/
def c6opts : Options := ⟨false, some "stable", false, some "2.0.0"⟩

/-- Environment in which 2.0.0 is installed and current. -/
def c6env : UpdEnv :=
  { lastrunMtime := none, current := "2.0.0", channelFile := none,
    distTags := Except.error (), localDirs := ["bin", "current", "2.0.0"],
    releases := Except.error (), latest := Except.error "x", downloadOk := true }

/-- C6 counterexample: the claim's antecedent holds (explicit requested
version, no force, a version directory for it present locally), yet the
run completes with an empty trace - in particular the shim is not
rewritten, because the current version already equals the resolved local
version and runUpdate returns early. -/
theorem C6_counterexample :
    c6opts.version = some "2.0.0" ∧ c6opts.force = false ∧
    findLocalVersion "2.0.0" c6env.localDirs = some "2.0.0" ∧
    (runUpdate c6cfg c6opts c6env).result = Except.ok () ∧
    (runUpdate c6cfg c6opts c6env).trace = [] :=
  ⟨rfl, rfl, by decide, by rfl, by rfl⟩

/-- C6 (amended): an explicit requested version, not forced, resolving
to an installed local version (the first local directory whose name
starts with the requested string) different from the current version,
makes runUpdate perform no archive download and rewrite the shim for
that found local version. -/
theorem C6_switch_local (cfg : Config) (opts : Options) (env : UpdEnv) (v lv : String)
    (hdeb : opts.autoUpdate = false ∨ env.lastrunMtime.isSome)
    (hbin : cfg.binPath.isNone = false)
    (hv : opts.version = some v)
    (hf : opts.force = false)
    (hl : findLocalVersion v env.localDirs = some lv)
    (hcur : env.current ≠ lv) :
    (∀ s, Ev.download s ∉ (runUpdate cfg opts env).trace) ∧
    Ev.createBinEv lv ∈ (runUpdate cfg opts env).trace := by
  obtain ⟨t0, ht0, hrun⟩ := runUpdate_debounced cfg opts env hdeb
  rw [hrun, runUpdateBody_switch_local cfg opts env t0 v lv hbin hv hf hl hcur]
  rcases ht0 with h | h <;> subst h
  · exact ⟨fun s => by simp, by simp⟩
  · exact ⟨fun s => by simp, by simp⟩

/-- Configuration for the C6 witness run. -/
def w6cfg : Config := ⟨"xata", "1.0.0", some "bin/xata"⟩

/-- Options of the C6 witness: requested version prefix 1.2. -/
def w6opts : Options := ⟨false, none, false, some "1.2"⟩

/-- Environment of the C6 witness: 1.2.3 installed, current is 1.0.0. -/
def w6env : UpdEnv :=
  { lastrunMtime := some 0, current := "1.0.0", channelFile := some "beta",
    distTags := Except.error (), localDirs := ["bin", "current", "1.0.0", "1.2.3"],
    releases := Except.error (), latest := Except.error "x", downloadOk := true }

/-- Witness for C6 (amended) at a concrete switch-local run. -/
theorem C6_witness :
    (∀ s, Ev.download s ∉ (runUpdate w6cfg w6opts w6env).trace) ∧
    Ev.createBinEv "1.2.3" ∈ (runUpdate w6cfg w6opts w6env).trace :=
  C6_switch_local w6cfg w6opts w6env "1.2" "1.2.3" (Or.inl rfl) rfl rfl rfl (by decide) (by decide)

/-- C7: an explicit requested version that is not installed locally (or
a forced run) and absent from the freshly fetched version index makes
runUpdate reject with the error whose message is the requested version
followed by "not found in index:" and the comma-separated list of every
indexed version. -/
theorem C7_version_not_found (cfg : Config) (opts : Options) (env : UpdEnv)
    (v : String) (index : List (String × String))
    (hdeb : opts.autoUpdate = false ∨ env.lastrunMtime.isSome)
    (hbin : cfg.binPath.isNone = false)
    (hv : opts.version = some v)
    (hlv : (if opts.force then none else findLocalVersion v env.localDirs) = none)
    (hidx : fetchVersionIndex cfg.name env.releases = Except.ok index)
    (habs : index.lookup v = none) :
    (runUpdate cfg opts env).result =
      Except.error (UErr.msg (v ++ " not found in index:\n" ++
        String.intercalate ", " (index.map Prod.fst))) := by
  obtain ⟨t0, _, hrun⟩ := runUpdate_debounced cfg opts env hdeb
  rw [hrun]
  exact runUpdateBody_not_in_index cfg opts env t0 v index hbin hv hlv hidx habs

/-- Configuration for the C7 witness run. -/
def w7cfg : Config := ⟨"xata", "1.0.0", some "bin/xata"⟩

/-- Options of the C7 witness: request a version nobody published. -/
def w7opts : Options := ⟨false, some "stable", false, some "9.9.9"⟩

/-- Environment of the C7 witness: two CLI releases are indexed, the
requested one is not among them. -/
def w7env : UpdEnv :=
  { lastrunMtime := none, current := "1.0.0", channelFile := none,
    distTags := Except.error (), localDirs := ["bin", "current", "1.0.0"],
    releases := Except.ok ["@xata.io/cli@1.0.0", "other@2.0.0", "@xata.io/cli@1.1.0"],
    latest := Except.error "x", downloadOk := true }

/-- Witness for C7 at a concrete absent version. -/
theorem C7_witness :
    (runUpdate w7cfg w7opts w7env).result =
      Except.error (UErr.msg "9.9.9 not found in index:\n1.0.0, 1.1.0") :=
  C7_version_not_found w7cfg w7opts w7env "9.9.9"
    [("1.0.0", "LINK_TO_DOWNLOAD_BINARY"), ("1.1.0", "LINK_TO_DOWNLOAD_BINARY")]
    (Or.inl rfl) rfl rfl (by decide) (by rfl) (by decide)

/-- C8: when the remote dist-tags query succeeds and its first tag
mapping to the requested version is t, determineChannel translates
latest to stable and latest-rc to stable-rc and returns any other tag
unchanged; and when the query fails, the persisted channel is returned
(the trimmed channel file contents, or stable when the file is absent)
and no error escapes (the function is total). -/
theorem C8_channel_resolution (cf : Option String) (ver t : String)
    (tags : List (String × String))
    (hfind : (tags.map Prod.fst).find? (fun k => tags.lookup k == some ver) = some t) :
    ((t = "latest" → determineChannel cf (some ver) (Except.ok tags) = "stable") ∧
     (t = "latest-rc" → determineChannel cf (some ver) (Except.ok tags) = "stable-rc") ∧
     (t ≠ "latest" → t ≠ "latest-rc" → determineChannel cf (some ver) (Except.ok tags) = t)) ∧
    (∀ version : Option String,
      determineChannel none version (Except.error ()) = "stable" ∧
      ∀ c : String, determineChannel (some c) version (Except.error ()) = c.trim) := by
  constructor
  · refine ⟨?_, ?_, ?_⟩
    · intro h; subst h; simp [determineChannel, hfind]
    · intro h; subst h; simp [determineChannel, hfind]; decide
    · intro h1 h2; simp [determineChannel, hfind, h1, h2]
  · intro version
    exact ⟨rfl, fun c => rfl⟩

/-- Witness for C8: a custom tag next maps through unchanged, and the
failure fallbacks return the default and the trimmed persisted file. -/
theorem C8_witness :
    determineChannel (some " beta ") (some "2.0.0")
      (Except.ok [("latest", "1.0.0"), ("next", "2.0.0")]) = "next" ∧
    determineChannel none none (Except.error ()) = "stable" ∧
    determineChannel (some " beta ") none (Except.error ()) = " beta ".trim := by
  have h := C8_channel_resolution (some " beta ") "2.0.0" "next"
    [("latest", "1.0.0"), ("next", "2.0.0")] (by decide)
  exact ⟨h.1.2.2 (by decide) (by decide), (h.2 none).1, (h.2 none).2 " beta "⟩

/-- C9: whenever the debounce gate lets the caller proceed at poll n
having started at poll k, the marker mtime plus one hour was not in the
future at poll n, at every earlier poll it still was (so the gate never
permits proceeding while the instant is in the future, and permits it at
the first poll at which it has passed), and the gate performed exactly
one fixed 60000 ms sleep per intervening poll; moreover a poll at which
the instant has already passed proceeds immediately, with no sleep. -/
theorem C9_debounce_gate :
    (∀ mt clock : Nat → Int, ∀ fuel k n : Nat, ∀ sl : List Int,
      debounceGate mt clock fuel k = (some n, sl) →
      k ≤ n ∧ mt n + 3600000 ≤ clock n ∧
      (∀ j, k ≤ j → j < n → clock j < mt j + 3600000) ∧
      sl = List.replicate (n - k) 60000) ∧
    (∀ mt clock : Nat → Int, ∀ fuel k : Nat,
      mt k + 3600000 ≤ clock k → debounceGate mt clock (fuel + 1) k = (some k, [])) := by
  constructor
  · intro mt clock fuel
    induction fuel with
    | zero =>
      intro k n sl h
      simp [debounceGate] at h
    | succ m ih =>
      intro k n sl h
      simp only [debounceGate] at h
      by_cases hc : clock k < mt k + 3600000
      · rw [if_pos hc] at h
        rcases hr : debounceGate mt clock m (k + 1) with ⟨o, sl2⟩
        rw [hr] at h
        simp only [Prod.mk.injEq] at h
        obtain ⟨ho, hsl⟩ := h
        subst ho
        obtain ⟨hkn, hinst, hall, hrep⟩ := ih (k + 1) n sl2 hr
        refine ⟨by omega, hinst, ?_, ?_⟩
        · intro j hj1 hj2
          rcases Nat.eq_or_lt_of_le hj1 with rfl | hlt
          · exact hc
          · exact hall j hlt hj2
        · rw [← hsl, hrep, show n - k = (n - (k + 1)) + 1 by omega, List.replicate_succ]
      · rw [if_neg hc] at h
        simp only [Prod.mk.injEq, Option.some.injEq] at h
        obtain ⟨ho, hsl⟩ := h
        subst ho
        refine ⟨Nat.le_refl k, not_lt.mp hc, ?_, ?_⟩
        · intro j hj1 hj2; omega
        · rw [← hsl]; simp
  · intro mt clock fuel k h
    simp only [debounceGate]
    rw [if_neg (not_lt.mpr h)]

/-- Marker mtime oracle of the C9 witness: a marker written at time 0. -/
def w9mt : Nat → Int := fun _ => 0

/-- Wall clock of the C9 witness: one minute from the window's end at
the first poll, advancing one minute per poll. -/
def w9clock : Nat → Int := fun j => 3540000 + 60000 * (j : Int)

/-- Witness for C9: starting one minute early the gate sleeps exactly
once and proceeds at the second poll; a poll inside the open window
proceeds at once with no sleep. -/
theorem C9_witness :
    (0 ≤ 1 ∧ w9mt 1 + 3600000 ≤ w9clock 1 ∧
      (∀ j, 0 ≤ j → j < 1 → w9clock j < w9mt j + 3600000) ∧
      ([60000] : List Int) = List.replicate (1 - 0) 60000) ∧
    debounceGate w9mt w9clock 4 1 = (some 1, []) :=
  ⟨C9_debounce_gate.1 w9mt w9clock 5 0 1 [60000] (by decide),
   C9_debounce_gate.2 w9mt w9clock 3 1 (by decide)⟩

/-- C10: a runUpdate call with autoUpdate set and no lastrun marker in
the cache directory rejects with the stat error from inside the debounce
gate, before any decision is taken or any effect happens (the trace is
empty). -/
theorem C10_missing_marker (cfg : Config) (opts : Options) (env : UpdEnv)
    (hau : opts.autoUpdate = true) (hm : env.lastrunMtime = none) :
    (runUpdate cfg opts env).result = Except.error (UErr.enoentStat "lastrun") ∧
    (runUpdate cfg opts env).trace = [] := by
  constructor <;> simp [runUpdate, hau, hm]

/-- Configuration for the C10 witness run. -/
def w10cfg : Config := ⟨"xata", "1.0.0", some "bin/xata"⟩

/-- Options of the C10 witness: autoupdate on. -/
def w10opts : Options := ⟨true, none, false, none⟩

/-- Environment of the C10 witness: no lastrun marker. -/
def w10env : UpdEnv :=
  { lastrunMtime := none, current := "1.0.0", channelFile := none,
    distTags := Except.error (), localDirs := [],
    releases := Except.error (), latest := Except.ok "2.0.0", downloadOk := true }

/-- Witness for C10 at a concrete missing-marker run. -/
theorem C10_witness :
    (runUpdate w10cfg w10opts w10env).result = Except.error (UErr.enoentStat "lastrun") ∧
    (runUpdate w10cfg w10opts w10env).trace = [] :=
  C10_missing_marker w10cfg w10opts w10env rfl rfl

end Upd
